import Mathlib

/-!
Shallow embedding of `object_detection/utils/np_motion_util.py` (Motion R-CNN).

Conventions used throughout this development:

* numpy double arrays are embedded over `ℚ`.  IEEE special values are not
  modelled: Lean's total division (`q / 0 = 0`) stands in for numpy's
  NaN/Inf at the degenerate divisions (`f = 0` during inverse projection,
  `Z = 0` during forward projection).  Every statement that touches such a
  division is made at inputs where the two semantics agree on the truth of
  the statement at hand.
* a dense `[H, W]` array is a total function `ℕ → ℕ → ℚ` read at row
  indices below `H` and column indices below `W`; a flat vector (a motion
  vector of 15 entries, a camera motion of 12, intrinsics of 3) is a total
  function `ℕ → ℚ` read at the indices the source reads.
* `np_box_list` and `np_box_list_ops` are external collaborators of this
  module (they are not part of the verified source): following the
  specification they are kept opaque, the IoU computation being a function
  parameter producing the pairwise IoU matrix, and `BoxList.num_boxes()`
  being the row count of the box array.
* the final `astype(np.float32)` cast of `dense_flow_from_motion` and the
  float dtype of every array are outside the rational embedding and are
  not modelled.
-/

/-- A camera-space 3D point `(X, Y, Z)`, one cell of the `[H, W, 3]` point
field `P` of `dense_flow_from_motion`. -/
structure V3 where
  x : ℚ
  y : ℚ
  z : ℚ
deriving DecidableEq

/-- Componentwise addition of 3D points (numpy `+` on the last axis). -/
def v3add (a b : V3) : V3 := ⟨a.x + b.x, a.y + b.y, a.z + b.z⟩

/-- Componentwise subtraction of 3D points (numpy `-` on the last axis). -/
def v3sub (a b : V3) : V3 := ⟨a.x - b.x, a.y - b.y, a.z - b.z⟩

/-- Scalar multiplication of a 3D point (numpy broadcasting `mask * (...)`). -/
def v3smul (s : ℚ) (a : V3) : V3 := ⟨s * a.x, s * a.y, s * a.z⟩

/-- Source `_pixels_to_3d(x, y, d, camera_intrinsics)`: inverse pinhole
projection of one pixel.  `f, x0, y0 = camera_intrinsics`;
`factor = d / f`; `X = (x - x0) * factor`; `Y = (y - y0) * factor`;
`Z = d`.  The source operates elementwise over `[H, W]` arrays; this is
the per-pixel computation. -/
def pixels_to_3d (f x0 y0 x y d : ℚ) : V3 :=
  ⟨(x - x0) * (d / f), (y - y0) * (d / f), d⟩

/-- Source `_3d_to_pixels(points, camera_intrinsics)`: forward pinhole
projection, `x = f * X / Z + x0`; `y = f * Y / Z + y0`.  The source
operates elementwise over the `[H, W, 3]` point field; this is the
per-point computation. -/
def p3d_to_pixels (f x0 y0 : ℚ) (p : V3) : ℚ × ℚ :=
  (f * p.x / p.z + x0, f * p.y / p.z + y0)

/-- Row-vector-times-transposed-matrix, `v · Rᵀ`, where `R` is the 3×3
matrix stored row-major in `m 0 .. m 8` (source `(...).dot(rot.T)`,
with `rot = np.reshape(motions[i, :9], [3, 3])`).
Component `j` is the dot product of `v` with row `j` of `R`. -/
def dotRowsT (v : V3) (m : ℕ → ℚ) : V3 :=
  ⟨v.x * m 0 + v.y * m 1 + v.z * m 2,
   v.x * m 3 + v.y * m 4 + v.z * m 5,
   v.x * m 6 + v.y * m 7 + v.z * m 8⟩

/-- One iteration of the object loop of `dense_flow_from_motion`, at one
pixel whose mask weight is `m`:
`P += mask * ((P - pivot).dot(rot.T) + pivot + trans - P)` with
`rot = motions[i, :9]` (row-major 3×3), `trans = motions[i, 9:12]`,
`pivot = motions[i, 12:]`. -/
def objStep (mv : ℕ → ℚ) (m : ℚ) (p : V3) : V3 :=
  v3add p (v3smul m
    (v3sub
      (v3add (v3add (dotRowsT (v3sub p ⟨mv 12, mv 13, mv 14⟩) mv)
                    ⟨mv 12, mv 13, mv 14⟩)
             ⟨mv 9, mv 10, mv 11⟩)
      p))

/-- The camera-motion step of `dense_flow_from_motion`, at one point:
`P = P.dot(rot_cam.T) + trans_cam` with `rot_cam = camera_motion[:9]`
(row-major 3×3) and `trans_cam = camera_motion[9:]`. -/
def camStep (cam : ℕ → ℚ) (p : V3) : V3 :=
  v3add (dotRowsT p cam) ⟨cam 9, cam 10, cam 11⟩

/-- One detected object of `dense_flow_from_motion`: its 15-value motion
vector `motions[i, :]` and its `[H, W]` mask `masks[i, :, :]`. -/
abbrev MotionObj := (ℕ → ℚ) × (ℕ → ℕ → ℚ)

/-- The object loop of `dense_flow_from_motion` at one pixel `(r, c)`:
the objects are folded over the running point in index order
`0 .. N-1` (`for i in range(motions.shape[0])`). -/
def pointAfterObjects (objs : List MotionObj) (r c : ℕ) (p : V3) : V3 :=
  objs.foldl (fun q o => objStep o.1 (o.2 r c) q) p

/-- The target pixel coordinates `(x_t, y_t)` of `dense_flow_from_motion`
at pixel `(r, c)`: back-project the pixel through the depth map (the
grid value at row `r`, column `c` is `x = c`, `y = r`, both exact
integers of `np.linspace(0, w - 1, w)` / `np.linspace(0, h - 1, h)`),
apply every object motion, apply the camera motion, and forward-project.
`intr 0, intr 1, intr 2` are `f, x0, y0`. -/
def denseFlowPoint (depth : ℕ → ℕ → ℚ) (objs : List MotionObj)
    (cam intr : ℕ → ℚ) (r c : ℕ) : ℚ × ℚ :=
  p3d_to_pixels (intr 0) (intr 1) (intr 2)
    (camStep cam
      (pointAfterObjects objs r c
        (pixels_to_3d (intr 0) (intr 1) (intr 2) (c : ℚ) (r : ℚ) (depth r c))))

/-- The flow value of `dense_flow_from_motion` at pixel `(r, c)`:
`flow = points_t - points`, i.e. `(x_t - x, y_t - y)`. -/
def denseFlowCore (depth : ℕ → ℕ → ℚ) (objs : List MotionObj)
    (cam intr : ℕ → ℚ) (r c : ℕ) : ℚ × ℚ :=
  ((denseFlowPoint depth objs cam intr r c).1 - (c : ℚ),
   (denseFlowPoint depth objs cam intr r c).2 - (r : ℚ))

/-- A numpy array as passed across the `dense_flow_from_motion` boundary:
its shape and its flat row-major data.  (A consistent numpy array has
`data.length = shape.prod`; the entry point below never reads beyond
that, out-of-range reads defaulting to `0`.) -/
structure NpArr where
  shape : List ℕ
  data : List ℚ

/-- Row-major flattening of the `[H, W, 2]` flow field, the data of the
array returned by `dense_flow_from_motion`. -/
def flowData (h w : ℕ) (flow : ℕ → ℕ → ℚ × ℚ) : List ℚ :=
  ((List.range h).map (fun r =>
    ((List.range w).map (fun c => [(flow r c).1, (flow r c).2])).flatten)).flatten

/-- Source `dense_flow_from_motion(depth, motions, masks, camera_motion,
camera_intrinsics)`.  Per its docstring and its own indexing, `depth`
must be `[height, width, 1]` (the code reads `depth.shape[:2]` and then
slices `depth[:, :, 0]`, so a rank-2 depth raises `IndexError`; any
positive channel count satisfies the slice), `motions` is
`[num_detections, 15]`, `masks` is `[num_detections, height, width]`,
`camera_motion` is `[12]` and `camera_intrinsics` is `[3]`.  Shape
violations are `none` (numpy raises on them; degenerate broadcasts of
mask shapes with ones are not modelled).  The result holds the
`[height, width, 2]` flow field. -/
def dense_flow_from_motion (depth motions masks camera_motion
    camera_intrinsics : NpArr) : Option NpArr :=
  match depth.shape, motions.shape, masks.shape, camera_motion.shape,
        camera_intrinsics.shape with
  | [h, w, ch], [n, mc], [mn, mh, mw], [cc], [ic] =>
    if 0 < ch ∧ mc = 15 ∧ mn = n ∧ mh = h ∧ mw = w ∧ cc = 12 ∧ ic = 3 then
      some ⟨[h, w, 2],
        flowData h w (denseFlowCore
          (fun r c => depth.data.getD ((r * w + c) * ch) 0)
          ((List.range n).map (fun i =>
            ((fun k => motions.data.getD (i * mc + k) 0),
             (fun r c => masks.data.getD ((i * mh + r) * mw + c) 0))))
          (fun k => camera_motion.data.getD k 0)
          (fun k => camera_intrinsics.data.getD k 0))⟩
    else none
  | _, _, _, _, _ => none

/-- Index of the first occurrence of the maximum of a list: the behaviour
of `np.argmax` on one row of the IoU matrix (`np.argmax(iou, axis=1)`),
whose documented tie rule is that the first occurrence is returned.
`np.argmax` raises on an empty row; here the empty case returns `0` and
every statement made about matching has nonempty rows. -/
def npArgmax : List ℚ → ℕ
  | [] => 0
  | [_] => 0
  | v :: w :: rest =>
    if (w :: rest).getD (npArgmax (w :: rest)) 0 ≤ v then 0
    else npArgmax (w :: rest) + 1

/-- The matching loop of `evaluate`: for each detection `i` in
`range(num_boxes)`, `gt_id = np.argmax(iou[i])`, and the pair
`(i, gt_id)` survives exactly when `iou[i, gt_id] >= threshold`. -/
def matched_pairs (iouM : List (List ℚ)) (ndet : ℕ) (thr : ℚ) :
    List (ℕ × ℕ) :=
  (List.range ndet).filterMap (fun i =>
    if thr ≤ (iouM.getD i []).getD (npArgmax (iouM.getD i [])) 0 then
      some (i, npArgmax (iouM.getD i []))
    else none)

/-- Behaviour of `np.stack(rows, axis=0)` on a list of equal-length rows:
stacking an empty list raises `ValueError: need at least one array to
stack`, otherwise the rows are returned as a 2-D array. -/
def np_stack (rows : List (List ℚ)) : Except String (List (List ℚ)) :=
  if rows = [] then .error "need at least one array to stack" else .ok rows

/-- Source `evaluate(gt_boxes, gt_motions, detected_boxes,
detected_motions, matching_iou_threshold)`, embedded up to the arrays it
hands to `_motion_errors` (which cannot run as written, see the
development below).  `iou_fn` is the opaque external collaborator
`np_box_list_ops.iou` of the specification, producing the pairwise IoU
matrix of the detected and ground-truth boxes; `num_boxes()` is the row
count of `detected_boxes`.  Note the source appends
`gt_boxes[gt_id, :]` — not `gt_motions[gt_id, :]` — to `target_list`,
and never reads `gt_motions`; this embedding reproduces that line
faithfully. -/
def evaluate (iou_fn : List (List ℚ) → List (List ℚ) → List (List ℚ))
    (gt_boxes gt_motions detected_boxes detected_motions : List (List ℚ))
    (matching_iou_threshold : ℚ) :
    Except String (List (List ℚ) × List (List ℚ)) :=
  let iouM := iou_fn detected_boxes gt_boxes
  let pairs := matched_pairs iouM detected_boxes.length matching_iou_threshold
  let pred_list := pairs.map (fun ij => detected_motions.getD ij.1 [])
  let target_list := pairs.map (fun ij => gt_boxes.getD ij.2 [])
  match np_stack pred_list, np_stack target_list with
  | .ok pred, .ok target => .ok (pred, target)
  | .error e, _ => .error e
  | _, .error e => .error e

/-- The 15-value motion vector whose rotation block is the identity matrix
(row-major `1,0,0,0,1,0,0,0,1`) and whose translation and pivot are
zero. -/
def motionIdentity (mv : ℕ → ℚ) : Prop :=
  mv 0 = 1 ∧ mv 1 = 0 ∧ mv 2 = 0 ∧ mv 3 = 0 ∧ mv 4 = 1 ∧ mv 5 = 0 ∧
  mv 6 = 0 ∧ mv 7 = 0 ∧ mv 8 = 1 ∧ mv 9 = 0 ∧ mv 10 = 0 ∧ mv 11 = 0 ∧
  mv 12 = 0 ∧ mv 13 = 0 ∧ mv 14 = 0

/-- The 12-value camera motion with identity rotation and zero
translation. -/
def camIdentity (cam : ℕ → ℚ) : Prop :=
  cam 0 = 1 ∧ cam 1 = 0 ∧ cam 2 = 0 ∧ cam 3 = 0 ∧ cam 4 = 1 ∧ cam 5 = 0 ∧
  cam 6 = 0 ∧ cam 7 = 0 ∧ cam 8 = 1 ∧ cam 9 = 0 ∧ cam 10 = 0 ∧ cam 11 = 0

/-- Written from the specification's words, for comparison with the source
loop body: the rigidly-transformed point `P' = (P - c) · R^T + c + t` of
spec §4.3 step 3. -/
def rigid_motion_spec (mv : ℕ → ℚ) (p : V3) : V3 :=
  v3add (v3add (dotRowsT (v3sub p ⟨mv 12, mv 13, mv 14⟩) mv)
               ⟨mv 12, mv 13, mv 14⟩)
        ⟨mv 9, mv 10, mv 11⟩

/-- Written from the specification's words, for comparison with the source
loop body: the blend `P ← (1 - mask) * P + mask * P'` of spec §4.3
step 3. -/
def blend_spec (o : MotionObj) (r c : ℕ) (q : V3) : V3 :=
  v3add (v3smul (1 - o.2 r c) q) (v3smul (o.2 r c) (rigid_motion_spec o.1 q))

/-- A concrete motion vector: identity rotation, translation `(1, 0, 0)`,
zero pivot. -/
def exTransMotion : ℕ → ℚ := fun k =>
  [1, 0, 0, 0, 1, 0, 0, 0, 1, 1, 0, 0, 0, 0, 0].getD k 0

/-- A concrete motion vector: rotation by 90° about the Z axis, zero
translation and pivot. -/
def exRotMotion : ℕ → ℚ := fun k =>
  [0, -1, 0, 1, 0, 0, 0, 0, 1, 0, 0, 0, 0, 0, 0].getD k 0

/-- The all-ones `[H, W]` mask. -/
def onesMask : ℕ → ℕ → ℚ := fun _ _ => 1

/-- The identity 15-value motion vector as concrete data. -/
def idMotionEx : ℕ → ℚ := fun k =>
  [1, 0, 0, 0, 1, 0, 0, 0, 1, 0, 0, 0, 0, 0, 0].getD k 0

/-- The identity 12-value camera motion as concrete data. -/
def idCamEx : ℕ → ℚ := fun k =>
  [1, 0, 0, 0, 1, 0, 0, 0, 1, 0, 0, 0].getD k 0

/-- A 3×3 real matrix, the value of `euler_to_rot` (which builds its
elemental factors with `np.cos`/`np.sin` as float matrices). -/
@[ext]
structure M3 where
  m00 : ℝ
  m01 : ℝ
  m02 : ℝ
  m10 : ℝ
  m11 : ℝ
  m12 : ℝ
  m20 : ℝ
  m21 : ℝ
  m22 : ℝ

/-- Matrix product of 3×3 matrices (numpy `@`). -/
def m3mul (A B : M3) : M3 :=
  ⟨A.m00 * B.m00 + A.m01 * B.m10 + A.m02 * B.m20,
   A.m00 * B.m01 + A.m01 * B.m11 + A.m02 * B.m21,
   A.m00 * B.m02 + A.m01 * B.m12 + A.m02 * B.m22,
   A.m10 * B.m00 + A.m11 * B.m10 + A.m12 * B.m20,
   A.m10 * B.m01 + A.m11 * B.m11 + A.m12 * B.m21,
   A.m10 * B.m02 + A.m11 * B.m12 + A.m12 * B.m22,
   A.m20 * B.m00 + A.m21 * B.m10 + A.m22 * B.m20,
   A.m20 * B.m01 + A.m21 * B.m11 + A.m22 * B.m21,
   A.m20 * B.m02 + A.m21 * B.m12 + A.m22 * B.m22⟩

/-- Transpose of a 3×3 matrix. -/
def m3transpose (A : M3) : M3 :=
  ⟨A.m00, A.m10, A.m20, A.m01, A.m11, A.m21, A.m02, A.m12, A.m22⟩

/-- The identity 3×3 matrix. -/
def m3one : M3 := ⟨1, 0, 0, 0, 1, 0, 0, 0, 1⟩

/-- Determinant of a 3×3 matrix (cofactor expansion along the first
row). -/
def m3det (A : M3) : ℝ :=
  A.m00 * (A.m11 * A.m22 - A.m12 * A.m21)
    - A.m01 * (A.m10 * A.m22 - A.m12 * A.m20)
    + A.m02 * (A.m10 * A.m21 - A.m11 * A.m20)

/-- Source `rot_x` of `euler_to_rot`: elemental rotation about the
X axis. -/
noncomputable def rot_x (t : ℝ) : M3 :=
  ⟨1, 0, 0,
   0, Real.cos t, -Real.sin t,
   0, Real.sin t, Real.cos t⟩

/-- Source `rot_z` of `euler_to_rot`: elemental rotation about the
Z axis. -/
noncomputable def rot_z (t : ℝ) : M3 :=
  ⟨Real.cos t, -Real.sin t, 0,
   Real.sin t, Real.cos t, 0,
   0, 0, 1⟩

/-- Source `rot_y` of `euler_to_rot`: elemental rotation about the
Y axis. -/
noncomputable def rot_y (t : ℝ) : M3 :=
  ⟨Real.cos t, 0, Real.sin t,
   0, 1, 0,
   -Real.sin t, 0, Real.cos t⟩

/-- Source `euler_to_rot(x, y, z)`: `rot_z @ rot_x @ rot_y`. -/
noncomputable def euler_to_rot (x y z : ℝ) : M3 :=
  m3mul (rot_z z) (m3mul (rot_x x) (rot_y y))

/-- Helper: the forward projection undoes the inverse projection at one
pixel provided neither the focal length nor the depth is zero. -/
lemma roundtrip_aux (f x0 y0 x y d : ℚ) (hf : f ≠ 0) (hd : d ≠ 0) :
    p3d_to_pixels f x0 y0 (pixels_to_3d f x0 y0 x y d) = (x, y) := by
  simp only [pixels_to_3d, p3d_to_pixels, Prod.mk.injEq]
  constructor
  · field_simp
  · field_simp

/-- Helper: the object update leaves a point unchanged when the object's
motion is the identity. -/
lemma objStep_motion_id (mv : ℕ → ℚ) (m : ℚ) (p : V3)
    (h : motionIdentity mv) : objStep mv m p = p := by
  obtain ⟨h0, h1, h2, h3, h4, h5, h6, h7, h8, h9, h10, h11, h12, h13, h14⟩ := h
  cases p with
  | mk px py pz =>
    simp only [objStep, dotRowsT, v3add, v3sub, v3smul, h0, h1, h2, h3, h4,
      h5, h6, h7, h8, h9, h10, h11, h12, h13, h14, V3.mk.injEq]
    refine ⟨by ring, by ring, by ring⟩

/-- Helper: the whole object loop leaves a point unchanged when every
object's motion is the identity. -/
lemma pointAfterObjects_motion_id (objs : List MotionObj) (r c : ℕ) (p : V3)
    (h : ∀ o ∈ objs, motionIdentity o.1) : pointAfterObjects objs r c p = p := by
  revert h
  induction objs generalizing p with
  | nil => intro _; rfl
  | cons o t ih =>
    intro h
    simp only [pointAfterObjects, List.foldl_cons]
    rw [objStep_motion_id _ _ _ (h o (List.mem_cons_self o t))]
    exact ih p (fun x hx => h x (List.mem_cons_of_mem o hx))

/-- Helper: the camera step leaves a point unchanged when the camera
motion is the identity. -/
lemma camStep_id (cam : ℕ → ℚ) (p : V3) (h : camIdentity cam) :
    camStep cam p = p := by
  obtain ⟨h0, h1, h2, h3, h4, h5, h6, h7, h8, h9, h10, h11⟩ := h
  cases p with
  | mk px py pz =>
    simp only [camStep, dotRowsT, v3add, h0, h1, h2, h3, h4, h5, h6, h7, h8,
      h9, h10, h11, V3.mk.injEq]
    refine ⟨by ring, by ring, by ring⟩

/-- C4 (amended): for every pixel `(x, y)` and depth `d`, with focal
length `f ≠ 0` and additionally `d ≠ 0`, forward-projecting the
back-projected 3D point reproduces the original pixel coordinates:
`_3d_to_pixels(_pixels_to_3d(x, y, d, intr), intr) = (x, y)`. -/
theorem roundtrip_projection (f x0 y0 x y d : ℚ) (hf : f ≠ 0) (hd : d ≠ 0) :
    p3d_to_pixels f x0 y0 (pixels_to_3d f x0 y0 x y d) = (x, y) :=
  roundtrip_aux f x0 y0 x y d hf hd

/-- Witness for C4's theorem at `f = 2`, `x0 = 3`, `y0 = 4`, `x = 5`,
`y = 6`, `d = 7`. -/
theorem roundtrip_projection_witness :
    p3d_to_pixels 2 3 4 (pixels_to_3d 2 3 4 5 6 7) = (5, 6) :=
  roundtrip_projection 2 3 4 5 6 7 (by norm_num) (by norm_num)

/-- Counterexample to C4 as stated: at `f = 1`, `x0 = y0 = 0`, pixel
`(1, 0)` and depth `d = 0` the round trip does not reproduce the pixel
(the forward projection divides by `Z = 0`; numpy produces NaN there,
this embedding the junk value `0`, and neither equals `1`). -/
theorem roundtrip_projection_counterexample :
    p3d_to_pixels 1 0 0 (pixels_to_3d 1 0 0 1 0 0) ≠ (1, 0) := by
  norm_num [pixels_to_3d, p3d_to_pixels, Prod.ext_iff]

/-- C3 (amended): if every object motion is the identity and the camera
motion is the identity, and additionally the focal length is nonzero and
the depth is nonzero at every pixel, `dense_flow_from_motion` produces
the zero flow at every pixel. -/
theorem dense_flow_zero_motion (depth : ℕ → ℕ → ℚ) (objs : List MotionObj)
    (cam intr : ℕ → ℚ) (hobjs : ∀ o ∈ objs, motionIdentity o.1)
    (hcam : camIdentity cam) (hf : intr 0 ≠ 0)
    (hd : ∀ r c : ℕ, depth r c ≠ 0) (r c : ℕ) :
    denseFlowCore depth objs cam intr r c = (0, 0) := by
  have h1 : denseFlowPoint depth objs cam intr r c = ((c : ℚ), (r : ℚ)) := by
    simp only [denseFlowPoint]
    rw [pointAfterObjects_motion_id _ _ _ _ hobjs, camStep_id _ _ hcam]
    exact roundtrip_aux _ _ _ _ _ _ hf (hd r c)
  simp only [denseFlowCore, h1]
  norm_num

/-- Witness for C3's theorem: identity object over a constant mask `1/3`,
identity camera, intrinsics `(2, 3, 4)`, constant depth `2`, at pixel
row 0, column 1. -/
theorem dense_flow_zero_motion_witness :
    denseFlowCore (fun _ _ => 2) [(idMotionEx, fun _ _ => 1 / 3)] idCamEx
      (fun k => [2, 3, 4].getD k 0) 0 1 = (0, 0) :=
  dense_flow_zero_motion (fun _ _ => 2) [(idMotionEx, fun _ _ => 1 / 3)]
    idCamEx (fun k => [2, 3, 4].getD k 0)
    (by intro o ho; rw [List.mem_singleton.mp ho]; norm_num [motionIdentity, idMotionEx])
    (by norm_num [camIdentity, idCamEx])
    (by norm_num) (fun _ _ => by norm_num) 0 1

/-- Counterexample to C3 as stated: with no objects, identity camera
motion and intrinsics `(1, 0, 0)`, but a depth map that is `0`, the flow
at pixel row 0, column 1 is not zero (numpy produces NaN there from the
division by `Z = 0`; this embedding produces `-1`). -/
theorem dense_flow_zero_motion_counterexample :
    denseFlowCore (fun _ _ => 0) [] idCamEx (fun k => [1, 0, 0].getD k 0) 0 1
      ≠ (0, 0) := by
  norm_num [denseFlowCore, denseFlowPoint, pointAfterObjects, camStep,
    pixels_to_3d, p3d_to_pixels, dotRowsT, v3add, v3sub, v3smul, idCamEx,
    Prod.ext_iff]

/-- Helper: the object update with a zero mask weight leaves the point
unchanged. -/
lemma objStep_zero_mask (mv : ℕ → ℚ) (p : V3) : objStep mv 0 p = p := by
  cases p with
  | mk px py pz =>
    simp only [objStep, dotRowsT, v3add, v3sub, v3smul, V3.mk.injEq]
    refine ⟨by ring, by ring, by ring⟩

/-- C9: an object whose mask is zero at every pixel contributes nothing:
the flow equals the flow with that object removed from the list, whatever
its motion parameters are. -/
theorem dense_flow_mask_zero_invariance (depth : ℕ → ℕ → ℚ)
    (pre post : List MotionObj) (mv : ℕ → ℚ) (mask : ℕ → ℕ → ℚ)
    (cam intr : ℕ → ℚ) (hmask : ∀ r c : ℕ, mask r c = 0) (r c : ℕ) :
    denseFlowCore depth (pre ++ (mv, mask) :: post) cam intr r c
      = denseFlowCore depth (pre ++ post) cam intr r c := by
  have key : ∀ p : V3, pointAfterObjects (pre ++ (mv, mask) :: post) r c p
      = pointAfterObjects (pre ++ post) r c p := by
    intro p
    simp only [pointAfterObjects, List.foldl_append, List.foldl_cons]
    rw [hmask r c, objStep_zero_mask]
  simp only [denseFlowCore, denseFlowPoint, key]

/-- Witness for C9's theorem: one all-zero-masked translating object
against the empty object list, constant depth `1`, identity camera,
intrinsics `(1, 0, 0)`, at pixel `(0, 0)`. -/
theorem dense_flow_mask_zero_invariance_witness :
    denseFlowCore (fun _ _ => 1) [(exTransMotion, fun _ _ => 0)] idCamEx
        (fun k => [1, 0, 0].getD k 0) 0 0
      = denseFlowCore (fun _ _ => 1) [] idCamEx
        (fun k => [1, 0, 0].getD k 0) 0 0 :=
  dense_flow_mask_zero_invariance (fun _ _ => 1) [] [] exTransMotion
    (fun _ _ => 0) idCamEx (fun k => [1, 0, 0].getD k 0)
    (fun _ _ => rfl) 0 0

/-- Helper: the source loop body `P += mask * ((P - c)·Rᵀ + c + t - P)`
equals the specification's blend `(1 - mask) * P + mask * P'`. -/
lemma objStep_eq_blend (o : MotionObj) (r c : ℕ) (q : V3) :
    objStep o.1 (o.2 r c) q = blend_spec o r c q := by
  cases q with
  | mk qx qy qz =>
    simp only [objStep, blend_spec, rigid_motion_spec, dotRowsT, v3add, v3sub,
      v3smul, V3.mk.injEq]
    refine ⟨by ring, by ring, by ring⟩

/-- Helper: with mask weight `1` the object update is exactly the rigid
transform. -/
lemma objStep_one_mask (mv : ℕ → ℚ) (p : V3) :
    objStep mv 1 p = rigid_motion_spec mv p := by
  cases p with
  | mk px py pz =>
    simp only [objStep, rigid_motion_spec, dotRowsT, v3add, v3sub, v3smul,
      V3.mk.injEq]
    refine ⟨by ring, by ring, by ring⟩

/-- C5: the object loop processes the objects in index order as a left
fold of the specification's blend `P ← (1-mask)*P + mask*((P-c)·Rᵀ+c+t)`
over the running field (first conjunct); with overlapping all-ones masks
the second object's transform is applied to the already-transformed
field, giving the sequential composition of the two rigid motions
(second conjunct); and this differs from applying both transforms to the
original points, as the concrete overlapping pair (translation by
`(1,0,0)`, then 90° rotation about Z) at point `(1,0,0)` shows (third
conjunct). -/
theorem dense_flow_sequential_composition :
    (∀ (objs : List MotionObj) (r c : ℕ) (p : V3),
        pointAfterObjects objs r c p
          = objs.foldl (fun q o => blend_spec o r c q) p)
    ∧ (∀ (mv1 mv2 : ℕ → ℚ) (r c : ℕ) (p : V3),
        pointAfterObjects [(mv1, onesMask), (mv2, onesMask)] r c p
          = rigid_motion_spec mv2 (rigid_motion_spec mv1 p))
    ∧ pointAfterObjects [(exTransMotion, onesMask), (exRotMotion, onesMask)]
          0 0 ⟨1, 0, 0⟩
        ≠ v3add ⟨1, 0, 0⟩
            (v3add (v3sub (rigid_motion_spec exTransMotion ⟨1, 0, 0⟩) ⟨1, 0, 0⟩)
                   (v3sub (rigid_motion_spec exRotMotion ⟨1, 0, 0⟩) ⟨1, 0, 0⟩)) := by
  refine ⟨?_, ?_, ?_⟩
  · intro objs r c p
    induction objs generalizing p with
    | nil => rfl
    | cons o t ih =>
      simp only [pointAfterObjects, List.foldl_cons]
      rw [objStep_eq_blend]
      exact ih _
  · intro mv1 mv2 r c p
    simp only [pointAfterObjects, List.foldl_cons, List.foldl_nil, onesMask]
    rw [objStep_one_mask, objStep_one_mask]
  · norm_num [pointAfterObjects, objStep, rigid_motion_spec, dotRowsT, v3add,
      v3sub, v3smul, exTransMotion, exRotMotion, onesMask, V3.mk.injEq]

/-- Witness for C5's theorem: its sequential-composition conjunct applied
to the two concrete overlapping objects at point `(1, 0, 0)`. -/
theorem dense_flow_sequential_composition_witness :
    pointAfterObjects [(exTransMotion, onesMask), (exRotMotion, onesMask)]
        0 0 ⟨1, 0, 0⟩
      = rigid_motion_spec exRotMotion (rigid_motion_spec exTransMotion ⟨1, 0, 0⟩) :=
  dense_flow_sequential_composition.2.1 exTransMotion exRotMotion 0 0 ⟨1, 0, 0⟩

/-- Helper: `npArgmax` of a nonempty list is a valid index. -/
lemma npArgmax_lt : ∀ (l : List ℚ), l ≠ [] → npArgmax l < l.length
  | [], h => absurd rfl h
  | [_], _ => by simp [npArgmax]
  | v :: w :: rest, _ => by
    have ih := npArgmax_lt (w :: rest) (by simp)
    simp only [npArgmax]
    split
    · simp
    · simpa using Nat.succ_lt_succ ih

/-- Helper: `npArgmax` attains the maximum of the list. -/
lemma npArgmax_max : ∀ (l : List ℚ) (k : ℕ), k < l.length →
    l.getD k 0 ≤ l.getD (npArgmax l) 0
  | [], k, hk => by simp at hk
  | [v], k, hk => by
    have hk0 : k = 0 := by simpa using hk
    subst hk0
    simp [npArgmax]
  | v :: w :: rest, k, hk => by
    simp only [npArgmax]
    split
    case isTrue hle =>
      cases k with
      | zero => simp
      | succ k' =>
        have hk' : k' < (w :: rest).length := by
          simpa [Nat.succ_lt_succ_iff] using hk
        calc (v :: w :: rest).getD (k' + 1) 0
            = (w :: rest).getD k' 0 := by simp [List.getD_cons_succ]
          _ ≤ (w :: rest).getD (npArgmax (w :: rest)) 0 :=
              npArgmax_max (w :: rest) k' hk'
          _ ≤ v := hle
          _ = (v :: w :: rest).getD 0 0 := by simp
    case isFalse hlt =>
      cases k with
      | zero =>
        have hv : v < (w :: rest).getD (npArgmax (w :: rest)) 0 :=
          not_le.mp hlt
        simpa [List.getD_cons_succ] using hv.le
      | succ k' =>
        have hk' : k' < (w :: rest).length := by
          simpa [Nat.succ_lt_succ_iff] using hk
        simpa [List.getD_cons_succ] using npArgmax_max (w :: rest) k' hk'

/-- Helper: every index strictly before `npArgmax` holds a strictly
smaller value: ties go to the first occurrence, as `np.argmax`
documents. -/
lemma npArgmax_first : ∀ (l : List ℚ) (k : ℕ), k < npArgmax l →
    l.getD k 0 < l.getD (npArgmax l) 0
  | [], k, hk => by simp [npArgmax] at hk
  | [v], k, hk => by simp [npArgmax] at hk
  | v :: w :: rest, k, hk => by
    by_cases hle : (w :: rest).getD (npArgmax (w :: rest)) 0 ≤ v
    · rw [npArgmax, if_pos hle] at hk
      exact absurd hk (Nat.not_lt_zero k)
    · rw [npArgmax, if_neg hle] at hk ⊢
      have htop : (v :: w :: rest).getD (npArgmax (w :: rest) + 1) 0
          = (w :: rest).getD (npArgmax (w :: rest)) 0 := by
        simp [List.getD_cons_succ]
      cases k with
      | zero =>
        rw [htop]
        simpa using not_le.mp hle
      | succ k' =>
        have hk' : k' < npArgmax (w :: rest) := Nat.lt_of_succ_lt_succ hk
        rw [htop]
        simpa [List.getD_cons_succ] using npArgmax_first (w :: rest) k' hk'

/-- Helper: membership in the matched pairs of `evaluate`'s loop. -/
lemma mem_matched_pairs (iouM : List (List ℚ)) (ndet : ℕ) (thr : ℚ)
    (i j : ℕ) :
    (i, j) ∈ matched_pairs iouM ndet thr
      ↔ i < ndet ∧ j = npArgmax (iouM.getD i [])
          ∧ thr ≤ (iouM.getD i []).getD j 0 := by
  simp only [matched_pairs, List.mem_filterMap, List.mem_range]
  constructor
  · rintro ⟨a, ha, hsome⟩
    by_cases hc : thr ≤ (iouM.getD a []).getD (npArgmax (iouM.getD a [])) 0
    · rw [if_pos hc] at hsome
      have hpair := Option.some.inj hsome
      have h1 : a = i := congrArg Prod.fst hpair
      have h2 : npArgmax (iouM.getD a []) = j := congrArg Prod.snd hpair
      subst h1
      subst h2
      exact ⟨ha, rfl, hc⟩
    · rw [if_neg hc] at hsome
      exact absurd hsome (by simp)
  · rintro ⟨hi, rfl, hthr⟩
    exact ⟨i, hi, by rw [if_pos hthr]⟩

/-- C6: in `evaluate`'s matching loop, a pair `(i, j)` is emitted exactly
when `i` is a detection index, `j` is the `np.argmax` of row `i` of the
IoU matrix, and that entry clears the threshold (first conjunct) — so
several detections may share one ground-truth index and nothing is
deduplicated; `npArgmax` returns a valid index attaining the row maximum,
with ties broken towards the lowest index (second conjunct); and on the
spec's worked example — IoU column `[0.9, 0.3, 0.6]` against one ground
truth box at threshold `0.5` — exactly detections 0 and 2 are matched,
both to ground-truth index 0 (third conjunct). -/
theorem evaluate_greedy_matching :
    (∀ (iouM : List (List ℚ)) (ndet : ℕ) (thr : ℚ) (i j : ℕ),
        (i, j) ∈ matched_pairs iouM ndet thr
          ↔ i < ndet ∧ j = npArgmax (iouM.getD i [])
              ∧ thr ≤ (iouM.getD i []).getD j 0)
    ∧ (∀ l : List ℚ, l ≠ [] →
        npArgmax l < l.length
          ∧ (∀ k, k < l.length → l.getD k 0 ≤ l.getD (npArgmax l) 0)
          ∧ (∀ k, k < npArgmax l → l.getD k 0 < l.getD (npArgmax l) 0))
    ∧ matched_pairs [[9 / 10], [3 / 10], [6 / 10]] 3 (1 / 2) = [(0, 0), (2, 0)] := by
  refine ⟨mem_matched_pairs, ?_, ?_⟩
  · intro l hl
    exact ⟨npArgmax_lt l hl, fun k hk => npArgmax_max l k hk,
      fun k hk => npArgmax_first l k hk⟩
  · norm_num [matched_pairs, npArgmax, List.range_succ, List.filterMap_cons]

/-- Witness for C6's theorem: its `npArgmax` conjunct applied to the
concrete row `[2, 2, 3]`. -/
theorem evaluate_greedy_matching_witness :
    npArgmax [(2 : ℚ), 2, 3] < [(2 : ℚ), 2, 3].length :=
  (evaluate_greedy_matching.2.1 [(2 : ℚ), 2, 3] (by simp)).1

/-- C7: `evaluate` fails with the stacking error — rather than returning
a result — exactly when no detection survives the IoU threshold (with
zero matched pairs the source reaches `np.stack([], axis=0)`, which
raises `ValueError: need at least one array to stack`, before any mean
over the empty set could be formed). -/
theorem evaluate_empty_match_error
    (iou_fn : List (List ℚ) → List (List ℚ) → List (List ℚ))
    (gt_boxes gt_motions detected_boxes detected_motions : List (List ℚ))
    (thr : ℚ) :
    evaluate iou_fn gt_boxes gt_motions detected_boxes detected_motions thr
        = .error "need at least one array to stack"
      ↔ matched_pairs (iou_fn detected_boxes gt_boxes)
          detected_boxes.length thr = [] := by
  by_cases h : matched_pairs (iou_fn detected_boxes gt_boxes)
      detected_boxes.length thr = []
  · simp [evaluate, np_stack, h]
  · simp [evaluate, np_stack, h, List.map_eq_nil_iff]

/-- Witness for C7's theorem: one detection whose best IoU `0.25` is
below the threshold `0.5` makes `evaluate` raise the stacking error. -/
theorem evaluate_empty_match_error_witness :
    evaluate (fun _ _ => [[1 / 4]]) [[0, 0, 1, 1]] [[]] [[0, 0, 1, 1]] [[]]
        (1 / 2)
      = .error "need at least one array to stack" :=
  (evaluate_empty_match_error (fun _ _ => [[1 / 4]]) [[0, 0, 1, 1]] [[]]
    [[0, 0, 1, 1]] [[]] (1 / 2)).mpr
    (by norm_num [matched_pairs, npArgmax, List.range_succ, List.filterMap_cons])

/-- C1: on a concrete evaluation call — one ground-truth box `[0,0,1,1]`
with ground-truth motion of translation 5, one coinciding detection with
predicted motion of translation 7, IoU matrix `[[1]]`, threshold `0.5` —
the pair handed to the motion-error computation has the predicted motion
vector on the left but the ground-truth BOX row (4 box coordinates), not
the 15-value ground-truth motion vector, on the right: the source
appends `gt_boxes[gt_id, :]` to `target_list` and never reads
`gt_motions`. -/
theorem evaluate_target_is_box :
    evaluate (fun _ _ => [[1]]) [[0, 0, 1, 1]]
        [[1, 0, 0, 0, 1, 0, 0, 0, 1, 5, 0, 0, 0, 0, 0]]
        [[0, 0, 1, 1]]
        [[1, 0, 0, 0, 1, 0, 0, 0, 1, 7, 0, 0, 0, 0, 0]] (1 / 2)
      = .ok ([[1, 0, 0, 0, 1, 0, 0, 0, 1, 7, 0, 0, 0, 0, 0]], [[0, 0, 1, 1]])
    ∧ ([[(0 : ℚ), 0, 1, 1]] : List (List ℚ))
        ≠ [[1, 0, 0, 0, 1, 0, 0, 0, 1, 5, 0, 0, 0, 0, 0]] := by
  constructor
  · norm_num [evaluate, matched_pairs, npArgmax, np_stack, List.range_succ,
      List.filterMap_cons]
  · norm_num

/-- Helper: the length of a flattened list of equal-length chunks. -/
lemma flatten_length_const {α : Type} (L : List (List α)) (k : ℕ)
    (hg : ∀ l ∈ L, l.length = k) : L.flatten.length = L.length * k := by
  induction L with
  | nil => simp
  | cons a t ih =>
    simp only [List.flatten_cons, List.length_append, List.length_cons]
    rw [ih (fun l hl => hg l (List.mem_cons_of_mem a hl)),
      hg a (List.mem_cons_self a t)]
    ring

/-- Helper: the flattened flow field of an `H × W` image holds
`H * W * 2` values. -/
lemma flowData_length (h w : ℕ) (flow : ℕ → ℕ → ℚ × ℚ) :
    (flowData h w flow).length = h * w * 2 := by
  have inner : ∀ r : ℕ,
      (((List.range w).map (fun c => [(flow r c).1, (flow r c).2])).flatten).length
        = w * 2 := by
    intro r
    rw [flatten_length_const _ 2 (by
      intro l hl
      obtain ⟨c, hc, hfc⟩ := List.mem_map.1 hl
      rw [← hfc]
      simp)]
    simp
  unfold flowData
  rw [flatten_length_const _ (w * 2) (by
    intro l hl
    obtain ⟨r, hr, hfr⟩ := List.mem_map.1 hl
    rw [← hfr]
    exact inner r)]
  simp only [List.length_map, List.length_range]
  rw [Nat.mul_assoc]

/-- Counterexample to C2 as stated: a depth map of shape `[H, W]` (here
`[1, 1]`) is rejected even when every other argument has its documented
shape — the source reads `depth[:, :, 0]`, which raises `IndexError` on
a rank-2 array. -/
theorem dense_flow_rejects_2d_depth :
    dense_flow_from_motion ⟨[1, 1], [0]⟩ ⟨[0, 15], []⟩ ⟨[0, 1, 1], []⟩
      ⟨[12], [1, 0, 0, 0, 1, 0, 0, 0, 1, 0, 0, 0]⟩ ⟨[3], [1, 0, 0]⟩ = none := rfl

/-- C2 (amended): with a depth map of shape `[H, W, 1]` — the shape the
source's docstring and its `depth[:, :, 0]` indexing require — together
with motions `[N, 15]`, masks `[N, H, W]`, camera motion `[12]` and
intrinsics `[3]`, `dense_flow_from_motion` returns a flow array of shape
`[H, W, 2]` holding `H * W * 2` values (the source additionally casts it
to `np.float32`, which the rational embedding does not model). -/
theorem dense_flow_output_shape (h w n : ℕ) (dd md kd cd ic : List ℚ) :
    ∃ out : NpArr,
      dense_flow_from_motion ⟨[h, w, 1], dd⟩ ⟨[n, 15], md⟩ ⟨[n, h, w], kd⟩
          ⟨[12], cd⟩ ⟨[3], ic⟩ = some out
        ∧ out.shape = [h, w, 2] ∧ out.data.length = h * w * 2 := by
  have happ : dense_flow_from_motion ⟨[h, w, 1], dd⟩ ⟨[n, 15], md⟩
      ⟨[n, h, w], kd⟩ ⟨[12], cd⟩ ⟨[3], ic⟩
      = some ⟨[h, w, 2], flowData h w (denseFlowCore
          (fun r c => dd.getD ((r * w + c) * 1) 0)
          ((List.range n).map (fun i =>
            ((fun k => md.getD (i * 15 + k) 0),
             (fun r c => kd.getD ((i * h + r) * w + c) 0))))
          (fun k => cd.getD k 0)
          (fun k => ic.getD k 0))⟩ := by
    simp only [dense_flow_from_motion]
    rw [if_pos]
    simp
  exact ⟨_, happ, rfl, flowData_length h w _⟩

/-- Helper: matrix multiplication of 3×3 matrices is associative. -/
lemma m3mul_assoc (A B C : M3) : m3mul (m3mul A B) C = m3mul A (m3mul B C) := by
  ext <;> simp [m3mul] <;> ring

/-- Helper: transposition reverses a 3×3 matrix product. -/
lemma m3transpose_mul (A B : M3) :
    m3transpose (m3mul A B) = m3mul (m3transpose B) (m3transpose A) := by
  ext <;> simp [m3mul, m3transpose] <;> ring

/-- Helper: the identity matrix is a left unit. -/
lemma m3one_mul (A : M3) : m3mul m3one A = A := by
  ext <;> simp [m3mul, m3one]

/-- Helper: the determinant is multiplicative on 3×3 matrices. -/
lemma m3det_mul (A B : M3) : m3det (m3mul A B) = m3det A * m3det B := by
  simp only [m3det, m3mul]
  ring

/-- Helper: the elemental X rotation is orthonormal. -/
lemma rot_x_orth (t : ℝ) : m3mul (m3transpose (rot_x t)) (rot_x t) = m3one := by
  ext <;> simp [rot_x, m3mul, m3transpose, m3one] <;>
    nlinarith [Real.sin_sq_add_cos_sq t]

/-- Helper: the elemental Y rotation is orthonormal. -/
lemma rot_y_orth (t : ℝ) : m3mul (m3transpose (rot_y t)) (rot_y t) = m3one := by
  ext <;> simp [rot_y, m3mul, m3transpose, m3one] <;>
    nlinarith [Real.sin_sq_add_cos_sq t]

/-- Helper: the elemental Z rotation is orthonormal. -/
lemma rot_z_orth (t : ℝ) : m3mul (m3transpose (rot_z t)) (rot_z t) = m3one := by
  ext <;> simp [rot_z, m3mul, m3transpose, m3one] <;>
    nlinarith [Real.sin_sq_add_cos_sq t]

/-- Helper: the elemental X rotation has determinant one. -/
lemma m3det_rot_x (t : ℝ) : m3det (rot_x t) = 1 := by
  simp [m3det, rot_x]
  nlinarith [Real.sin_sq_add_cos_sq t]

/-- Helper: the elemental Y rotation has determinant one. -/
lemma m3det_rot_y (t : ℝ) : m3det (rot_y t) = 1 := by
  simp [m3det, rot_y]
  nlinarith [Real.sin_sq_add_cos_sq t]

/-- Helper: the elemental Z rotation has determinant one. -/
lemma m3det_rot_z (t : ℝ) : m3det (rot_z t) = 1 := by
  simp [m3det, rot_z]
  nlinarith [Real.sin_sq_add_cos_sq t]

/-- Helper: a product of orthonormal matrices is orthonormal. -/
lemma orth_mul (A B : M3) (hA : m3mul (m3transpose A) A = m3one)
    (hB : m3mul (m3transpose B) B = m3one) :
    m3mul (m3transpose (m3mul A B)) (m3mul A B) = m3one := by
  rw [m3transpose_mul, m3mul_assoc, ← m3mul_assoc (m3transpose A) A B, hA,
    m3one_mul, hB]

/-- C10: for all Euler angles, `euler_to_rot` returns a valid rotation
matrix: its transpose times itself is the identity, and its determinant
is `+1` — so it always satisfies the caller contract on 9-value rotation
blocks. -/
theorem euler_to_rot_valid_rotation (x y z : ℝ) :
    m3mul (m3transpose (euler_to_rot x y z)) (euler_to_rot x y z) = m3one
      ∧ m3det (euler_to_rot x y z) = 1 := by
  constructor
  · simp only [euler_to_rot]
    exact orth_mul _ _ (rot_z_orth z) (orth_mul _ _ (rot_x_orth x) (rot_y_orth y))
  · simp only [euler_to_rot]
    rw [m3det_mul, m3det_mul, m3det_rot_z, m3det_rot_x, m3det_rot_y]
    norm_num
